import Mathlib

/-!
Verification of the `audio-track-mixer` library (src/index.ts and the
variant source file carrying `getTracksFromAudioElement`).

The mixer class is embedded shallowly: the WebAudio graph is modelled as a
list of directed edges between node identifiers, the `caches` Map as an
association list keyed by track id (JS `Map` preserves insertion order:
`set` of a fresh key appends, `delete` removes the entry), and the mutable
`gain.value` / `track.enabled` cells as association lists keyed by node id
and track id respectively.  A method that throws is embedded as a function
returning the receiver's state paired with `Except.error msg`; since every
throw in the source happens before any mutation, the returned state in the
error case is the input state, which makes the "no mutation on failure"
clauses explicit.  JS numbers in the volume path are embedded as `Rat`
(every computation involved — `volume / 100`, `max / 128 * 100` — is exact
in binary floating point at the inputs the claims quantify over, because
the divisors are 100 with small numerators or the power of two 128).
-/

deriving instance DecidableEq for Except

namespace AudioTrackMixer

/-- A `MediaStreamTrack` as far as the mixer inspects it: an identifier and
a kind discriminator.  The mutable `enabled` flag is modelled separately as
world state (see `MixerState.trackEnabled`), matching JS reference
semantics where `muteTrack` mutates the registered track object in place
without touching the registry structure. -/
structure Track where
  id : String
  kind : String
deriving DecidableEq, Repr

/-- The per-track wiring record stored in the `caches` Map
(interface `TrackCache` in the source).  Node and stream objects are
identified by the `Nat` at which the allocation counter stood when they
were created. -/
structure TrackCache where
  track : Track
  mediaStream : Nat
  sourceNode : Nat
  gainNode : Nat
deriving DecidableEq, Repr

/-- Node id of `this.destinationNode`, created first in the constructor. -/
def destinationNode : Nat := 0

/-- Node id of `this.analyserSourceNode`. -/
def analyserSourceNode : Nat := 1

/-- Node id of `this.analyser`. -/
def analyserNode : Nat := 2

/-- The mutable state of one `AudioTrackMixer` instance. -/
structure MixerState where
  /-- `this.caches : Map<string, TrackCache>` as an ordered association list. -/
  caches : List (String × TrackCache)
  /-- current `gain.value` of every created gain node, keyed by node id -/
  gains : List (Nat × Rat)
  /-- the directed `connect` edges of the audio graph -/
  conns : List (Nat × Nat)
  /-- current `enabled` flag of track objects mutated through the mixer,
  keyed by track id -/
  trackEnabled : List (String × Bool)
  /-- allocation counter producing fresh node/stream identities -/
  nextNodeId : Nat
deriving DecidableEq, Repr

/-- `Map.get` -/
def lookupAssoc {κ α : Type} [DecidableEq κ] : List (κ × α) → κ → Option α
  | [], _ => none
  | (kp, vp) :: rest, k => if kp = k then some vp else lookupAssoc rest k

/-- `Map.set` (JS semantics: replace in place when the key exists,
append otherwise). -/
def setAssoc {κ α : Type} [DecidableEq κ] : List (κ × α) → κ → α → List (κ × α)
  | [], k, v => [(k, v)]
  | (kp, vp) :: rest, k, v =>
    if kp = k then (k, v) :: rest else (kp, vp) :: setAssoc rest k v

/-- `Map.delete` -/
def delAssoc {κ α : Type} [DecidableEq κ] (m : List (κ × α)) (k : κ) : List (κ × α) :=
  m.filter (fun p => p.1 ≠ k)

/-- The validation `!track.kind || track.kind !== 'audio'` that guards
every per-track method. -/
def isInvalidTrack (track : Track) : Bool :=
  track.kind == "" || track.kind != "audio"

/-- The mixer state right after a successful constructor run: empty
registry, the single analyser wire
`analyserSourceNode.connect(this.analyser)`, and the allocation counter
past the three constructor-created nodes. -/
def initialMixer : MixerState :=
  { caches := []
    gains := []
    conns := [(analyserSourceNode, analyserNode)]
    trackEnabled := []
    nextNodeId := 3 }

/-- `addTrack(track)` (src/index.ts lines 97–119). -/
def addTrack (s : MixerState) (track : Track) : MixerState × Except String MixerState :=
  if isInvalidTrack track then
    (s, .error "not an audio track")
  else
    match lookupAssoc s.caches track.id with
    | some _ =>
      (s, .error ("audio track (id: " ++ track.id ++ ") has already been added"))
    | none =>
      let mediaStream := s.nextNodeId
      let sourceNode := s.nextNodeId + 1
      let gainNode := s.nextNodeId + 2
      let s' : MixerState :=
        { caches := setAssoc s.caches track.id ⟨track, mediaStream, sourceNode, gainNode⟩
          gains := setAssoc s.gains gainNode 1
          conns := s.conns ++ [(sourceNode, gainNode), (gainNode, destinationNode)]
          trackEnabled := s.trackEnabled
          nextNodeId := s.nextNodeId + 3 }
      (s', .ok s')

/-- `removeTrack(track)` (src/index.ts lines 139–151). -/
def removeTrack (s : MixerState) (track : Track) : MixerState × Except String MixerState :=
  if isInvalidTrack track then
    (s, .error "not an audio track")
  else
    match lookupAssoc s.caches track.id with
    | some cache =>
      let s' : MixerState :=
        { s with
            conns := (s.conns.filter
                (fun e => e ≠ (cache.gainNode, destinationNode))).filter
                (fun e => e ≠ (cache.sourceNode, cache.gainNode))
            caches := delAssoc s.caches track.id }
      (s', .ok s')
    | none => (s, .ok s)

/-- `setTrackVolume(track, volume)` (src/index.ts lines 165–174). -/
def setTrackVolume (s : MixerState) (track : Track) (volume : Rat) :
    MixerState × Except String Unit :=
  if isInvalidTrack track then
    (s, .error "not an audio track")
  else
    match lookupAssoc s.caches track.id with
    | some cache =>
      ({ s with gains := setAssoc s.gains cache.gainNode (volume / 100) }, .ok ())
    | none => (s, .ok ())

/-- `muteTrack(track)` (src/index.ts lines 188–198): sets
`cache.track.enabled = false` (the registered object's flag). -/
def muteTrack (s : MixerState) (track : Track) : MixerState × Except String Bool :=
  if isInvalidTrack track then
    (s, .error "not an audio track")
  else
    match lookupAssoc s.caches track.id with
    | some cache =>
      ({ s with trackEnabled := setAssoc s.trackEnabled cache.track.id false }, .ok true)
    | none => (s, .ok false)

/-- `unmuteTrack(track)` (src/index.ts lines 212–222). -/
def unmuteTrack (s : MixerState) (track : Track) : MixerState × Except String Bool :=
  if isInvalidTrack track then
    (s, .error "not an audio track")
  else
    match lookupAssoc s.caches track.id with
    | some cache =>
      ({ s with trackEnabled := setAssoc s.trackEnabled cache.track.id true }, .ok true)
    | none => (s, .ok false)

/-- `getTracks()` (src/index.ts lines 233–239). -/
def getTracks (s : MixerState) : List Track :=
  s.caches.map (fun p => p.2.track)

/-- The `caches.forEach` loop of `destroy()`: disconnect
`gainNode → destinationNode` then `sourceNode → gainNode` for every
registration, in registry order. -/
def disconnectAll : List (String × TrackCache) → List (Nat × Nat) → List (Nat × Nat)
  | [], conns => conns
  | (_, cache) :: rest, conns =>
    disconnectAll rest
      ((conns.filter (fun e => e ≠ (cache.gainNode, destinationNode))).filter
        (fun e => e ≠ (cache.sourceNode, cache.gainNode)))

/-- `destroy()` (src/index.ts lines 301–308).  The promise returned by
`this.audioContext.close()` is modelled by its eventual outcome
`closeResult`, passed through as the method's return value. -/
def destroy (s : MixerState) (closeResult : Except String Unit) :
    MixerState × Except String Unit :=
  ({ s with conns := disconnectAll s.caches s.conns, caches := [] }, closeResult)

/-- `BASE` (src/index.ts line 21). -/
def BASE : Nat := 128

/-- The `forEach` reduction inside `getMixedTrackVolume`:
`max = Math.max(max, Math.abs(item - BASE))` over the byte samples. -/
def maxDeviation (data : List Nat) : Nat :=
  data.foldl (fun m item => Nat.max m (Int.natAbs ((item : Int) - (BASE : Int)))) 0

/-- `getMixedTrackVolume()` (src/index.ts lines 263–272).  The analyser,
when present, is represented by the byte contents the platform writes into
`this.timeDomainData`; `Math.floor((max / BASE) * 100)` on exact values is
natural-number division `max * 100 / BASE`. -/
def getMixedTrackVolume (analyser : Option (List Nat)) : Nat :=
  let max : Nat :=
    match analyser with
    | some data => maxDeviation data
    | none => 0
  max * 100 / BASE

/-- The capabilities the constructor probes: whether any of the (possibly
vendor-prefixed) audio-context globals resolved to a class, and whether a
constructed context exposes `createMediaStreamDestination` as a
function. -/
structure Env where
  hasAudioContextClass : Bool
  supportsCreateMediaStreamDestination : Bool
deriving DecidableEq, Repr

/-- Outcome of one constructor run, instrumented with the number of
audio-processing contexts created (`new AudioContextClass()`) and released
(`close()`) during the call. -/
structure ConstructResult where
  result : Except String MixerState
  contextsAllocated : Nat
  contextsReleased : Nat
deriving DecidableEq, Repr

/-- The constructor (src/index.ts lines 50–77).  When the class is
missing it throws before allocating anything; when
`createMediaStreamDestination` is unsupported it throws after
`this.audioContext = new AudioContextClass()` has already run, and no
`close()` appears on that path. -/
def constructMixer (env : Env) : ConstructResult :=
  if !env.hasAudioContextClass then
    { result := .error "the environment doesnot support to mix audio track"
      contextsAllocated := 0
      contextsReleased := 0 }
  else if !env.supportsCreateMediaStreamDestination then
    { result := .error "the environment doesnot support to mix audio track"
      contextsAllocated := 1
      contextsReleased := 0 }
  else
    { result := .ok initialMixer
      contextsAllocated := 1
      contextsReleased := 0 }

/-- A `MediaStream` as the static helpers see it: a bag of tracks. -/
structure MediaStream where
  tracks : List Track
deriving DecidableEq, Repr

/-- `stream.getAudioTracks()` -/
def MediaStream.getAudioTracks (s : MediaStream) : List Track :=
  s.tracks.filter (fun t => t.kind = "audio")

/-- `AudioTrackMixer.getTracks(stream)` (static, src/index.ts
lines 320–322). -/
def getTracksStatic (stream : MediaStream) : List Track :=
  stream.getAudioTracks

/-- The browser environment the static capture helpers probe:
`Audio.prototype.captureStream`, `Audio.prototype.mozCaptureStream`, the
`isSafari()` / `isOldEdge()` detection results, and the name/version pair
`getBrowserInfo()` reports (used only to format the warning). -/
structure BrowserEnv where
  hasCaptureStream : Bool
  hasMozCaptureStream : Bool
  safari : Bool
  oldEdge : Bool
  browserName : String
  browserVersion : String
deriving DecidableEq, Repr

/-- A media element as the capture helpers see it: the stream
`captureStream()` would yield, the stream `mozCaptureStream()` would
yield, and the legacy `audioTracks` property. -/
structure MediaElement where
  capturedStream : MediaStream
  mozCapturedStream : MediaStream
  audioTracks : List Track
deriving DecidableEq, Repr

/-- `AudioTrackMixer.getMediaStreamFromElement(el)` (src/index.ts
lines 344–353), paired with the list of `console.warn` messages the call
emits. -/
def getMediaStreamFromElement (env : BrowserEnv) (el : MediaElement) :
    Option MediaStream × List String :=
  if env.hasCaptureStream then
    (some el.capturedStream, [])
  else if env.hasMozCaptureStream then
    (some el.mozCapturedStream, [])
  else
    (none, [env.browserName ++ " - " ++ env.browserVersion ++ " is not support this API"])

/-- A JS value of declared type `MediaStreamTrack[]` as actually produced
by `getTracksFromAudioElement`: either a genuine array of tracks, or — in
the `mozCaptureStream` branch, which indexes the array with `[0]` — a
single track value (`none` standing for `undefined`). -/
inductive TracksValue
  | list : List Track → TracksValue
  | single : Option Track → TracksValue
deriving DecidableEq, Repr

/-- `AudioTrackMixer.getTracksFromAudioElement(audio)` (variant source
file lines 338–347), paired with the `console.warn` messages the call
emits (this function contains no `console.warn`). -/
def getTracksFromAudioElement (env : BrowserEnv) (audio : MediaElement) :
    TracksValue × List String :=
  if env.hasCaptureStream then
    (.list audio.capturedStream.getAudioTracks, [])
  else if env.hasMozCaptureStream then
    (.single audio.mozCapturedStream.getAudioTracks.head?, [])
  else if env.safari || env.oldEdge then
    (.list audio.audioTracks, [])
  else
    (.list [], [])

/-! ### Association-list lemmas -/

theorem lookupAssoc_setAssoc_self {κ α : Type} [DecidableEq κ]
    (m : List (κ × α)) (k : κ) (v : α) :
    lookupAssoc (setAssoc m k v) k = some v := by
  induction m with
  | nil => simp [setAssoc, lookupAssoc]
  | cons p rest ih =>
    obtain ⟨kp, vp⟩ := p
    by_cases h : kp = k
    · simp [setAssoc, lookupAssoc, h]
    · simp [setAssoc, lookupAssoc, h, ih]

theorem lookupAssoc_delAssoc_self {κ α : Type} [DecidableEq κ]
    (m : List (κ × α)) (k : κ) :
    lookupAssoc (delAssoc m k) k = none := by
  induction m with
  | nil => simp [delAssoc, lookupAssoc]
  | cons p rest ih =>
    obtain ⟨kp, vp⟩ := p
    by_cases h : kp = k
    · simpa [delAssoc, h] using ih
    · simpa [delAssoc, lookupAssoc, h] using ih

theorem lookupAssoc_eq_none_iff {κ α : Type} [DecidableEq κ]
    {m : List (κ × α)} {k : κ} :
    lookupAssoc m k = none ↔ k ∉ m.map Prod.fst := by
  induction m with
  | nil => simp [lookupAssoc]
  | cons p rest ih =>
    obtain ⟨kp, vp⟩ := p
    by_cases h : kp = k
    · simp [lookupAssoc, h]
    · simp [lookupAssoc, h, ih, Ne.symm h]

theorem lookupAssoc_some_mem {κ α : Type} [DecidableEq κ]
    {m : List (κ × α)} {k : κ} {v : α} (h : lookupAssoc m k = some v) :
    (k, v) ∈ m := by
  induction m with
  | nil => simp [lookupAssoc] at h
  | cons p rest ih =>
    obtain ⟨kp, vp⟩ := p
    by_cases hk : kp = k
    · subst hk
      simp [lookupAssoc] at h
      simp [h]
    · simp [lookupAssoc, hk] at h
      exact List.mem_cons_of_mem _ (ih h)

theorem setAssoc_of_lookup_none {κ α : Type} [DecidableEq κ]
    {m : List (κ × α)} {k : κ} (v : α) (h : lookupAssoc m k = none) :
    setAssoc m k v = m ++ [(k, v)] := by
  induction m with
  | nil => simp [setAssoc]
  | cons p rest ih =>
    obtain ⟨kp, vp⟩ := p
    by_cases hk : kp = k
    · simp [lookupAssoc, hk] at h
    · simp [lookupAssoc, hk] at h
      simp [setAssoc, hk, ih h]

theorem mem_delAssoc {κ α : Type} [DecidableEq κ]
    {m : List (κ × α)} {k : κ} {p : κ × α} :
    p ∈ delAssoc m k ↔ p ∈ m ∧ p.1 ≠ k := by
  simp [delAssoc, List.mem_filter]

theorem nodup_keys_unique {κ α : Type} [DecidableEq κ]
    {m : List (κ × α)} (hnd : (m.map Prod.fst).Nodup) {k : κ} {a b : α}
    (ha : (k, a) ∈ m) (hb : (k, b) ∈ m) : a = b := by
  induction m with
  | nil => simp at ha
  | cons p rest ih =>
    obtain ⟨kp, vp⟩ := p
    simp only [List.map_cons, List.nodup_cons] at hnd
    rcases List.mem_cons.1 ha with ha1 | ha1 <;>
      rcases List.mem_cons.1 hb with hb1 | hb1
    · rw [Prod.mk.injEq] at ha1 hb1
      rw [ha1.2, hb1.2]
    · exfalso
      rw [Prod.mk.injEq] at ha1
      exact hnd.1 (ha1.1 ▸ (List.mem_map.2 ⟨(k, b), hb1, rfl⟩))
    · exfalso
      rw [Prod.mk.injEq] at hb1
      exact hnd.1 (hb1.1 ▸ (List.mem_map.2 ⟨(k, a), ha1, rfl⟩))
    · exact ih hnd.2 ha1 hb1

theorem mem_disconnectAll {l : List (String × TrackCache)}
    {conns : List (Nat × Nat)} {e : Nat × Nat} :
    e ∈ disconnectAll l conns ↔
      e ∈ conns ∧ ∀ p ∈ l,
        e ≠ (p.2.gainNode, destinationNode) ∧ e ≠ (p.2.sourceNode, p.2.gainNode) := by
  induction l generalizing conns with
  | nil => simp [disconnectAll]
  | cons p rest ih =>
    obtain ⟨kp, cp⟩ := p
    simp only [disconnectAll, ih, List.mem_filter, decide_eq_true_eq,
      List.mem_cons, forall_eq_or_imp]
    tauto

/-! ### The track-kind validation -/

theorem isInvalidTrack_iff {t : Track} : isInvalidTrack t = true ↔ t.kind ≠ "audio" := by
  unfold isInvalidTrack
  constructor
  · intro h hk
    rw [hk] at h
    simp at h
  · intro h
    simp [h]

theorem isInvalidTrack_eq_false_iff {t : Track} :
    isInvalidTrack t = false ↔ t.kind = "audio" := by
  rw [← Bool.not_eq_true, isInvalidTrack_iff, not_not]

/-! ### Branch equations of the mixer methods -/

/-- The state `addTrack` builds on its success path: registration appended
under the track's id, the fresh gain node at unity gain, the two new wires
appended in call order. -/
def addedState (s : MixerState) (t : Track) : MixerState :=
  { caches := s.caches ++
      [(t.id, ⟨t, s.nextNodeId, s.nextNodeId + 1, s.nextNodeId + 2⟩)]
    gains := setAssoc s.gains (s.nextNodeId + 2) 1
    conns := s.conns ++
      [(s.nextNodeId + 1, s.nextNodeId + 2), (s.nextNodeId + 2, destinationNode)]
    trackEnabled := s.trackEnabled
    nextNodeId := s.nextNodeId + 3 }

theorem addTrack_invalid {s : MixerState} {t : Track} (h : t.kind ≠ "audio") :
    addTrack s t = (s, .error "not an audio track") := by
  unfold addTrack
  rw [isInvalidTrack_iff.2 h]
  simp

theorem addTrack_duplicate {s : MixerState} {t : Track} {c : TrackCache}
    (h : t.kind = "audio") (hc : lookupAssoc s.caches t.id = some c) :
    addTrack s t =
      (s, .error ("audio track (id: " ++ t.id ++ ") has already been added")) := by
  unfold addTrack
  rw [isInvalidTrack_eq_false_iff.2 h, hc]
  simp

theorem addTrack_success {s : MixerState} {t : Track}
    (h : t.kind = "audio") (hn : lookupAssoc s.caches t.id = none) :
    addTrack s t = (addedState s t, .ok (addedState s t)) := by
  unfold addTrack
  rw [isInvalidTrack_eq_false_iff.2 h, hn]
  simp only [addedState, setAssoc_of_lookup_none _ hn]
  rfl

/-- The state `removeTrack` builds when a registration is found: both
wires filtered out in call order, the registry entry deleted. -/
def removedState (s : MixerState) (t : Track) (c : TrackCache) : MixerState :=
  { s with
      conns := (s.conns.filter
          (fun e => e ≠ (c.gainNode, destinationNode))).filter
          (fun e => e ≠ (c.sourceNode, c.gainNode))
      caches := delAssoc s.caches t.id }

theorem removeTrack_invalid {s : MixerState} {t : Track} (h : t.kind ≠ "audio") :
    removeTrack s t = (s, .error "not an audio track") := by
  unfold removeTrack
  rw [isInvalidTrack_iff.2 h]
  simp

theorem removeTrack_notfound {s : MixerState} {t : Track}
    (h : t.kind = "audio") (hn : lookupAssoc s.caches t.id = none) :
    removeTrack s t = (s, .ok s) := by
  unfold removeTrack
  rw [isInvalidTrack_eq_false_iff.2 h, hn]
  rfl

theorem removeTrack_found {s : MixerState} {t : Track} {c : TrackCache}
    (h : t.kind = "audio") (hc : lookupAssoc s.caches t.id = some c) :
    removeTrack s t = (removedState s t c, .ok (removedState s t c)) := by
  unfold removeTrack
  rw [isInvalidTrack_eq_false_iff.2 h, hc]
  rfl

theorem setTrackVolume_invalid {s : MixerState} {t : Track} {v : Rat}
    (h : t.kind ≠ "audio") :
    setTrackVolume s t v = (s, .error "not an audio track") := by
  unfold setTrackVolume
  rw [isInvalidTrack_iff.2 h]
  simp

theorem setTrackVolume_notfound {s : MixerState} {t : Track} {v : Rat}
    (h : t.kind = "audio") (hn : lookupAssoc s.caches t.id = none) :
    setTrackVolume s t v = (s, .ok ()) := by
  unfold setTrackVolume
  rw [isInvalidTrack_eq_false_iff.2 h, hn]
  rfl

theorem setTrackVolume_found {s : MixerState} {t : Track} {v : Rat} {c : TrackCache}
    (h : t.kind = "audio") (hc : lookupAssoc s.caches t.id = some c) :
    setTrackVolume s t v =
      ({ s with gains := setAssoc s.gains c.gainNode (v / 100) }, .ok ()) := by
  unfold setTrackVolume
  rw [isInvalidTrack_eq_false_iff.2 h, hc]
  rfl

theorem muteTrack_invalid {s : MixerState} {t : Track} (h : t.kind ≠ "audio") :
    muteTrack s t = (s, .error "not an audio track") := by
  unfold muteTrack
  rw [isInvalidTrack_iff.2 h]
  simp

theorem muteTrack_notfound {s : MixerState} {t : Track}
    (h : t.kind = "audio") (hn : lookupAssoc s.caches t.id = none) :
    muteTrack s t = (s, .ok false) := by
  unfold muteTrack
  rw [isInvalidTrack_eq_false_iff.2 h, hn]
  rfl

theorem muteTrack_found {s : MixerState} {t : Track} {c : TrackCache}
    (h : t.kind = "audio") (hc : lookupAssoc s.caches t.id = some c) :
    muteTrack s t =
      ({ s with trackEnabled := setAssoc s.trackEnabled c.track.id false }, .ok true) := by
  unfold muteTrack
  rw [isInvalidTrack_eq_false_iff.2 h, hc]
  rfl

theorem unmuteTrack_invalid {s : MixerState} {t : Track} (h : t.kind ≠ "audio") :
    unmuteTrack s t = (s, .error "not an audio track") := by
  unfold unmuteTrack
  rw [isInvalidTrack_iff.2 h]
  simp

theorem unmuteTrack_notfound {s : MixerState} {t : Track}
    (h : t.kind = "audio") (hn : lookupAssoc s.caches t.id = none) :
    unmuteTrack s t = (s, .ok false) := by
  unfold unmuteTrack
  rw [isInvalidTrack_eq_false_iff.2 h, hn]
  rfl

theorem unmuteTrack_found {s : MixerState} {t : Track} {c : TrackCache}
    (h : t.kind = "audio") (hc : lookupAssoc s.caches t.id = some c) :
    unmuteTrack s t =
      ({ s with trackEnabled := setAssoc s.trackEnabled c.track.id true }, .ok true) := by
  unfold unmuteTrack
  rw [isInvalidTrack_eq_false_iff.2 h, hc]
  rfl

/-! ### The registry/graph invariant -/

/-- The invariant of the spec's data model: at most one registration per
identifier, every registration's source node wired through its gain node
into the destination node, and — the converse direction of the "if and
only if" — every wire into the destination node coming from the gain node
of some current registration. -/
def RegistryInvariant (s : MixerState) : Prop :=
  (s.caches.map Prod.fst).Nodup ∧
  (∀ p ∈ s.caches,
      (p.2.sourceNode, p.2.gainNode) ∈ s.conns ∧
      (p.2.gainNode, destinationNode) ∈ s.conns) ∧
  (∀ e ∈ s.conns, e.2 = destinationNode → ∃ p ∈ s.caches, p.2.gainNode = e.1)

/-- `RegistryInvariant` strengthened by the bookkeeping facts that make it
inductive: gain nodes are distinct from the destination node and pairwise
distinct, and every node id in use is below the allocation counter. -/
def Inv (s : MixerState) : Prop :=
  RegistryInvariant s ∧
  (∀ p ∈ s.caches,
      destinationNode < p.2.gainNode ∧
      p.2.sourceNode < s.nextNodeId ∧ p.2.gainNode < s.nextNodeId) ∧
  (∀ e ∈ s.conns, e.1 < s.nextNodeId ∧ e.2 < s.nextNodeId) ∧
  s.caches.Pairwise (fun p q => p.2.gainNode ≠ q.2.gainNode)

theorem inv_initialMixer : Inv initialMixer := by
  refine ⟨⟨?_, ?_, ?_⟩, ?_, ?_, ?_⟩ <;>
    simp [initialMixer, destinationNode, analyserSourceNode, analyserNode]

theorem inv_addTrack {s : MixerState} (t : Track) (h : Inv s) :
    Inv ((addTrack s t).1) := by
  by_cases hk : t.kind = "audio"
  · cases hc : lookupAssoc s.caches t.id with
    | some c => rw [addTrack_duplicate hk hc]; exact h
    | none =>
      rw [addTrack_success hk hc]
      obtain ⟨⟨hnd, hwired, hdest⟩, hbound, hcbound, hpw⟩ := h
      have hfresh : t.id ∉ s.caches.map Prod.fst := lookupAssoc_eq_none_iff.1 hc
      refine ⟨⟨?_, ?_, ?_⟩, ?_, ?_, ?_⟩
      · simp only [addedState, List.map_append, List.map_cons, List.map_nil,
          List.nodup_append]
        exact ⟨hnd, List.nodup_singleton _, by
          intro a ha hb
          simp only [List.mem_singleton] at hb
          exact hfresh (hb ▸ ha)⟩
      · intro p hp
        simp only [addedState, List.mem_append, List.mem_singleton] at hp
        rcases hp with hp | hp
        · obtain ⟨h1, h2⟩ := hwired p hp
          exact ⟨List.mem_append_left _ h1, List.mem_append_left _ h2⟩
        · subst hp
          constructor <;> simp [addedState]
      · intro e he hedest
        simp only [addedState, List.mem_append, List.mem_cons, List.mem_singleton,
          List.not_mem_nil, or_false] at he
        rcases he with he | he | he
        · obtain ⟨p, hp, hpg⟩ := hdest e he hedest
          exact ⟨p, by simp [addedState, hp], hpg⟩
        · subst he
          simp only [destinationNode] at hedest
          omega
        · subst he
          refine ⟨(t.id, ⟨t, s.nextNodeId, s.nextNodeId + 1, s.nextNodeId + 2⟩), ?_, rfl⟩
          simp [addedState]
      · intro p hp
        simp only [addedState, List.mem_append, List.mem_singleton] at hp
        rcases hp with hp | hp
        · obtain ⟨h1, h2, h3⟩ := hbound p hp
          exact ⟨h1, by simp only [addedState]; omega, by simp only [addedState]; omega⟩
        · subst hp
          refine ⟨?_, ?_, ?_⟩ <;> simp only [addedState, destinationNode] <;> omega
      · intro e he
        simp only [addedState, List.mem_append, List.mem_cons, List.mem_singleton,
          List.not_mem_nil, or_false] at he
        rcases he with he | he | he
        · obtain ⟨h1, h2⟩ := hcbound e he
          constructor <;> simp only [addedState] <;> omega
        · subst he
          constructor <;> simp only [addedState] <;> omega
        · subst he
          constructor <;> simp only [addedState, destinationNode] <;> omega
      · simp only [addedState, List.pairwise_append, List.pairwise_cons]
        refine ⟨hpw, by simp, ?_⟩
        intro p hp q hq
        simp only [List.mem_singleton] at hq
        subst hq
        have := (hbound p hp).2.2
        simp only [ne_eq]
        omega
  · rw [addTrack_invalid hk]
    exact h

theorem inv_removeTrack {s : MixerState} (t : Track) (h : Inv s) :
    Inv ((removeTrack s t).1) := by
  by_cases hk : t.kind = "audio"
  · cases hc : lookupAssoc s.caches t.id with
    | none => rw [removeTrack_notfound hk hc]; exact h
    | some c =>
      rw [removeTrack_found hk hc]
      obtain ⟨⟨hnd, hwired, hdest⟩, hbound, hcbound, hpw⟩ := h
      have hcmem : (t.id, c) ∈ s.caches := lookupAssoc_some_mem hc
      have hgain : ∀ p ∈ s.caches, p ≠ (t.id, c) → p.2.gainNode ≠ c.gainNode := by
        intro p hp hne
        exact hpw.forall (fun _ _ hr => hr.symm) hp hcmem hne
      have hmemconns : ∀ e : Nat × Nat,
          e ∈ (removedState s t c).conns ↔
            e ∈ s.conns ∧ e ≠ (c.gainNode, destinationNode) ∧
              e ≠ (c.sourceNode, c.gainNode) := by
        intro e
        simp only [removedState, List.mem_filter, decide_eq_true_eq]
        tauto
      refine ⟨⟨?_, ?_, ?_⟩, ?_, ?_, ?_⟩
      · exact hnd.sublist ((List.filter_sublist _).map Prod.fst)
      · intro p hp
        rw [show (removedState s t c).caches = delAssoc s.caches t.id from rfl,
          mem_delAssoc] at hp
        obtain ⟨hpmem, hpne⟩ := hp
        have hpnec : p ≠ (t.id, c) := by
          intro hpe
          exact hpne (by rw [hpe])
        have hg := hgain p hpmem hpnec
        have hgz := (hbound p hpmem).1
        have hcz := (hbound (t.id, c) hcmem).1
        obtain ⟨h1, h2⟩ := hwired p hpmem
        constructor
        · rw [hmemconns]
          refine ⟨h1, ?_, ?_⟩
          · intro he
            rw [Prod.mk.injEq] at he
            simp only [destinationNode] at he hgz
            omega
          · intro he
            rw [Prod.mk.injEq] at he
            exact hg he.2
        · rw [hmemconns]
          refine ⟨h2, ?_, ?_⟩
          · intro he
            rw [Prod.mk.injEq] at he
            exact hg he.1
          · intro he
            rw [Prod.mk.injEq] at he
            simp only [destinationNode] at he hcz
            omega
      · intro e he hedest
        rw [hmemconns] at he
        obtain ⟨hemem, hene1, _⟩ := he
        obtain ⟨p, hp, hpg⟩ := hdest e hemem hedest
        have hpnec : p ≠ (t.id, c) := by
          intro hpe
          apply hene1
          rw [Prod.ext_iff]
          exact ⟨by rw [← hpg, hpe], hedest⟩
        refine ⟨p, ?_, hpg⟩
        rw [show (removedState s t c).caches = delAssoc s.caches t.id from rfl,
          mem_delAssoc]
        refine ⟨hp, ?_⟩
        intro hpid
        apply hpnec
        have : p.2 = c := nodup_keys_unique hnd (by rw [← hpid]; exact hp) hcmem
        rw [← hpid, ← this]
      · intro p hp
        rw [show (removedState s t c).caches = delAssoc s.caches t.id from rfl,
          mem_delAssoc] at hp
        exact hbound p hp.1
      · intro e he
        rw [hmemconns] at he
        exact hcbound e he.1
      · exact hpw.sublist (List.filter_sublist _)
  · rw [removeTrack_invalid hk]
    exact h

theorem inv_setTrackVolume {s : MixerState} (t : Track) (v : Rat) (h : Inv s) :
    Inv ((setTrackVolume s t v).1) := by
  by_cases hk : t.kind = "audio"
  · cases hc : lookupAssoc s.caches t.id with
    | none => rw [setTrackVolume_notfound hk hc]; exact h
    | some c => rw [setTrackVolume_found hk hc]; exact h
  · rw [setTrackVolume_invalid hk]; exact h

theorem inv_muteTrack {s : MixerState} (t : Track) (h : Inv s) :
    Inv ((muteTrack s t).1) := by
  by_cases hk : t.kind = "audio"
  · cases hc : lookupAssoc s.caches t.id with
    | none => rw [muteTrack_notfound hk hc]; exact h
    | some c => rw [muteTrack_found hk hc]; exact h
  · rw [muteTrack_invalid hk]; exact h

theorem inv_unmuteTrack {s : MixerState} (t : Track) (h : Inv s) :
    Inv ((unmuteTrack s t).1) := by
  by_cases hk : t.kind = "audio"
  · cases hc : lookupAssoc s.caches t.id with
    | none => rw [unmuteTrack_notfound hk hc]; exact h
    | some c => rw [unmuteTrack_found hk hc]; exact h
  · rw [unmuteTrack_invalid hk]; exact h

theorem inv_destroy {s : MixerState} (r : Except String Unit) (h : Inv s) :
    Inv ((destroy s r).1) := by
  obtain ⟨⟨hnd, hwired, hdest⟩, hbound, hcbound, hpw⟩ := h
  refine ⟨⟨?_, ?_, ?_⟩, ?_, ?_, ?_⟩
  · simp [destroy]
  · simp [destroy]
  · intro e he hedest
    exfalso
    rw [show (destroy s r).1.conns = disconnectAll s.caches s.conns from rfl,
      mem_disconnectAll] at he
    obtain ⟨hemem, hall⟩ := he
    obtain ⟨p, hp, hpg⟩ := hdest e hemem hedest
    exact (hall p hp).1 (by rw [Prod.ext_iff]; exact ⟨hpg.symm, hedest⟩)
  · simp [destroy]
  · intro e he
    rw [show (destroy s r).1.conns = disconnectAll s.caches s.conns from rfl,
      mem_disconnectAll] at he
    exact hcbound e he.1
  · simp [destroy]

/-- The states one mixer instance can be in: the constructor's result
state followed by any sequence of method calls.  The `.1` projection of
each embedded method is the receiver's state after the call, also when the
call threw (the getters `getTracks` / `getMixedTrack` /
`getMixedMediaStream` / `getMixedTrackVolume` read state without producing
a new one, so they preserve every state property definitionally). -/
inductive Reachable : MixerState → Prop
  | construct : Reachable initialMixer
  | add (s : MixerState) (t : Track) : Reachable s → Reachable ((addTrack s t).1)
  | remove (s : MixerState) (t : Track) : Reachable s → Reachable ((removeTrack s t).1)
  | setVolume (s : MixerState) (t : Track) (v : Rat) :
      Reachable s → Reachable ((setTrackVolume s t v).1)
  | mute (s : MixerState) (t : Track) : Reachable s → Reachable ((muteTrack s t).1)
  | unmute (s : MixerState) (t : Track) : Reachable s → Reachable ((unmuteTrack s t).1)
  | teardown (s : MixerState) (r : Except String Unit) :
      Reachable s → Reachable ((destroy s r).1)

theorem reachable_inv {s : MixerState} (h : Reachable s) : Inv s := by
  induction h with
  | construct => exact inv_initialMixer
  | add s t _ ih => exact inv_addTrack t ih
  | remove s t _ ih => exact inv_removeTrack t ih
  | setVolume s t v _ ih => exact inv_setTrackVolume t v ih
  | mute s t _ ih => exact inv_muteTrack t ih
  | unmute s t _ ih => exact inv_unmuteTrack t ih
  | teardown s r _ ih => exact inv_destroy r ih

/-! ### Claim theorems -/

/-- Claim C1: for every mixer state and input track, `addTrack` throws
"not an audio track" when the track's kind is not "audio" and the
duplicate-registration error when a registration for the identifier
already exists, in both cases leaving the mixer state unchanged (the
returned receiver state is the input state); on success it stores under
the track's identifier a registration whose fresh source node is wired to
a fresh gain node (at unity gain) and that gain node to the destination
node, and returns the mixer itself (the `ok` payload is the receiver's
new state). -/
theorem addTrack_spec (s : MixerState) (t : Track) :
    (t.kind ≠ "audio" → addTrack s t = (s, .error "not an audio track")) ∧
    (t.kind = "audio" → ∀ c : TrackCache, lookupAssoc s.caches t.id = some c →
      addTrack s t =
        (s, .error ("audio track (id: " ++ t.id ++ ") has already been added"))) ∧
    (t.kind = "audio" → lookupAssoc s.caches t.id = none →
      ∃ s₁ sourceNode gainNode,
        addTrack s t = (s₁, .ok s₁) ∧
        s.nextNodeId ≤ sourceNode ∧ s.nextNodeId ≤ gainNode ∧ sourceNode ≠ gainNode ∧
        lookupAssoc s₁.caches t.id = some ⟨t, s.nextNodeId, sourceNode, gainNode⟩ ∧
        (sourceNode, gainNode) ∈ s₁.conns ∧
        (gainNode, destinationNode) ∈ s₁.conns ∧
        lookupAssoc s₁.gains gainNode = some 1) := by
  refine ⟨fun hk => addTrack_invalid hk, fun hk c hc => addTrack_duplicate hk hc, ?_⟩
  intro hk hn
  refine ⟨addedState s t, s.nextNodeId + 1, s.nextNodeId + 2,
    addTrack_success hk hn, by omega, by omega, by omega, ?_, ?_, ?_, ?_⟩
  · show lookupAssoc (s.caches ++ [(t.id, _)]) t.id = _
    rw [← setAssoc_of_lookup_none _ hn, lookupAssoc_setAssoc_self]
  · simp [addedState]
  · simp [addedState]
  · exact lookupAssoc_setAssoc_self s.gains _ 1

/-- Closed instance of C1: an invalid kind throws, a duplicate add throws,
and a first add succeeds, all on concrete inputs. -/
theorem addTrack_spec_witness :
    addTrack initialMixer ⟨"a", "video"⟩ =
      (initialMixer, .error "not an audio track") ∧
    addTrack (addTrack initialMixer ⟨"a", "audio"⟩).1 ⟨"a", "audio"⟩ =
      ((addTrack initialMixer ⟨"a", "audio"⟩).1,
        .error ("audio track (id: " ++ "a" ++ ") has already been added")) ∧
    (∃ s₁ sourceNode gainNode,
      addTrack initialMixer ⟨"a", "audio"⟩ = (s₁, .ok s₁) ∧
      initialMixer.nextNodeId ≤ sourceNode ∧ initialMixer.nextNodeId ≤ gainNode ∧
      sourceNode ≠ gainNode ∧
      lookupAssoc s₁.caches "a" =
        some ⟨⟨"a", "audio"⟩, initialMixer.nextNodeId, sourceNode, gainNode⟩ ∧
      (sourceNode, gainNode) ∈ s₁.conns ∧
      (gainNode, destinationNode) ∈ s₁.conns ∧
      lookupAssoc s₁.gains gainNode = some 1) := by
  refine ⟨?_, ?_, ?_⟩
  · exact (addTrack_spec initialMixer ⟨"a", "video"⟩).1 (by decide)
  · exact (addTrack_spec (addTrack initialMixer ⟨"a", "audio"⟩).1 ⟨"a", "audio"⟩).2.1
      rfl ⟨⟨"a", "audio"⟩, 3, 4, 5⟩ (by rfl)
  · exact (addTrack_spec initialMixer ⟨"a", "audio"⟩).2.2 rfl rfl

/-- Claim C2: every reachable mixer state holds at most one registration
per track identifier, and a registration exists exactly when its source
node is wired through its gain node into the destination node
(`RegistryInvariant`); reachability closes the initial state under
`addTrack`, `removeTrack`, `setTrackVolume`, `muteTrack`, `unmuteTrack`
and `destroy`, so every operation preserves the invariant, and the
getters, which create no new state, preserve it trivially. -/
theorem reachable_registryInvariant (s : MixerState) (h : Reachable s) :
    RegistryInvariant s :=
  (reachable_inv h).1

/-- Closed instance of C2 at the constructor's state and one `addTrack`
step. -/
theorem reachable_registryInvariant_witness :
    RegistryInvariant initialMixer ∧
    RegistryInvariant ((addTrack initialMixer ⟨"a", "audio"⟩).1) :=
  ⟨reachable_registryInvariant initialMixer Reachable.construct,
    reachable_registryInvariant _
      (Reachable.add initialMixer ⟨"a", "audio"⟩ Reachable.construct)⟩

/-- Claim C3 counterexample: in the environment where the audio-context
class exists but the context does not support creating a
stream-destination node, construction does throw the capability error,
yet the audio-processing context allocated by
`this.audioContext = new AudioContextClass()` before the check is never
released — an audio-processing context remains allocated, contradicting
the claim's "no audio-processing context remains allocated". -/
theorem constructMixer_leak_counterexample :
    (∃ e, (constructMixer ⟨true, false⟩).result = Except.error e) ∧
    (constructMixer ⟨true, false⟩).contextsAllocated ≠
      (constructMixer ⟨true, false⟩).contextsReleased :=
  ⟨⟨"the environment doesnot support to mix audio track", rfl⟩, by decide⟩

/-- Claim C3 as amended: both capability failures throw the capability
error and retain no mixer state (no `ok` state escapes); when the
audio-context class itself is missing no context is ever allocated, but
when the class exists and stream-destination creation is unsupported, the
one context created before the check remains allocated (it is never
released). -/
theorem constructMixer_spec (env : Env) :
    (env.hasAudioContextClass = false →
      (constructMixer env).result =
        .error "the environment doesnot support to mix audio track" ∧
      (constructMixer env).contextsAllocated = 0 ∧
      (constructMixer env).contextsReleased = 0) ∧
    (env.hasAudioContextClass = true →
      env.supportsCreateMediaStreamDestination = false →
      (constructMixer env).result =
        .error "the environment doesnot support to mix audio track" ∧
      (constructMixer env).contextsAllocated = 1 ∧
      (constructMixer env).contextsReleased = 0) ∧
    (env.hasAudioContextClass = true →
      env.supportsCreateMediaStreamDestination = true →
      (constructMixer env).result = .ok initialMixer) := by
  obtain ⟨hc, hd⟩ := env
  cases hc <;> cases hd <;> simp [constructMixer]

/-- Closed instance of the amended C3 at all three environments. -/
theorem constructMixer_spec_witness :
    ((constructMixer ⟨false, false⟩).result =
        .error "the environment doesnot support to mix audio track" ∧
      (constructMixer ⟨false, false⟩).contextsAllocated = 0) ∧
    (constructMixer ⟨true, false⟩).contextsAllocated = 1 ∧
    (constructMixer ⟨true, true⟩).result = .ok initialMixer :=
  ⟨⟨((constructMixer_spec ⟨false, false⟩).1 rfl).1,
      ((constructMixer_spec ⟨false, false⟩).1 rfl).2.1⟩,
    ((constructMixer_spec ⟨true, false⟩).2.1 rfl rfl).2.1,
    (constructMixer_spec ⟨true, true⟩).2.2 rfl rfl⟩

/-- Claim C4: for a registered audio-kind track and a volume in `[0, 100]`
`setTrackVolume` sets that registration's gain node value to exactly
`volume / 100`; for an unregistered audio-kind track it returns silently
with the state unchanged; for a non-audio-kind track it throws
"not an audio track". -/
theorem setTrackVolume_spec (s : MixerState) (t : Track) (v : Rat)
    (_hlo : 0 ≤ v) (_hhi : v ≤ 100) :
    (t.kind = "audio" → ∀ c : TrackCache, lookupAssoc s.caches t.id = some c →
      setTrackVolume s t v =
        ({ s with gains := setAssoc s.gains c.gainNode (v / 100) }, .ok ()) ∧
      lookupAssoc (setTrackVolume s t v).1.gains c.gainNode = some (v / 100)) ∧
    (t.kind = "audio" → lookupAssoc s.caches t.id = none →
      setTrackVolume s t v = (s, .ok ())) ∧
    (t.kind ≠ "audio" →
      setTrackVolume s t v = (s, .error "not an audio track")) := by
  refine ⟨?_, fun hk hn => setTrackVolume_notfound hk hn,
    fun hk => setTrackVolume_invalid hk⟩
  intro hk c hc
  refine ⟨setTrackVolume_found hk hc, ?_⟩
  rw [setTrackVolume_found hk hc]
  exact lookupAssoc_setAssoc_self s.gains c.gainNode (v / 100)

/-- Closed instance of C4: volume 50 on the registered track "a" sets its
gain node (id 5) to `50 / 100`. -/
theorem setTrackVolume_spec_witness :
    lookupAssoc
      (setTrackVolume (addTrack initialMixer ⟨"a", "audio"⟩).1 ⟨"a", "audio"⟩ 50).1.gains
      5 = some (50 / 100) :=
  ((setTrackVolume_spec (addTrack initialMixer ⟨"a", "audio"⟩).1 ⟨"a", "audio"⟩ 50
      (by decide) (by decide)).1 rfl ⟨⟨"a", "audio"⟩, 3, 4, 5⟩ (by rfl)).2

/-- Claim C5: on an audio-kind track, `muteTrack` sets the registered
track object's `enabled` flag to `false` and returns `true` when a
registration exists, and returns `false` without throwing otherwise;
`unmuteTrack` is symmetric with `true`; neither call changes the
registry entries, any gain node value, or the node wiring. -/
theorem muteTrack_unmuteTrack_spec (s : MixerState) (t : Track)
    (hk : t.kind = "audio") :
    (∀ c : TrackCache, lookupAssoc s.caches t.id = some c →
      muteTrack s t =
        ({ s with trackEnabled := setAssoc s.trackEnabled c.track.id false }, .ok true) ∧
      unmuteTrack s t =
        ({ s with trackEnabled := setAssoc s.trackEnabled c.track.id true }, .ok true) ∧
      lookupAssoc (muteTrack s t).1.trackEnabled c.track.id = some false ∧
      lookupAssoc (unmuteTrack s t).1.trackEnabled c.track.id = some true ∧
      (muteTrack s t).1.caches = s.caches ∧
      (muteTrack s t).1.gains = s.gains ∧
      (muteTrack s t).1.conns = s.conns ∧
      (unmuteTrack s t).1.caches = s.caches ∧
      (unmuteTrack s t).1.gains = s.gains ∧
      (unmuteTrack s t).1.conns = s.conns) ∧
    (lookupAssoc s.caches t.id = none →
      muteTrack s t = (s, .ok false) ∧ unmuteTrack s t = (s, .ok false)) := by
  constructor
  · intro c hc
    rw [muteTrack_found hk hc, unmuteTrack_found hk hc]
    refine ⟨rfl, rfl, ?_, ?_, rfl, rfl, rfl, rfl, rfl, rfl⟩
    · exact lookupAssoc_setAssoc_self s.trackEnabled c.track.id false
    · exact lookupAssoc_setAssoc_self s.trackEnabled c.track.id true
  · intro hn
    exact ⟨muteTrack_notfound hk hn, unmuteTrack_notfound hk hn⟩

/-- Closed instance of C5: muting registered track "a" flips its enabled
flag to `false` and returns `true` leaving registry, gains and wiring
untouched; muting on the empty mixer returns `false`. -/
theorem muteTrack_unmuteTrack_spec_witness :
    lookupAssoc
      (muteTrack (addTrack initialMixer ⟨"a", "audio"⟩).1 ⟨"a", "audio"⟩).1.trackEnabled
      "a" = some false ∧
    (muteTrack (addTrack initialMixer ⟨"a", "audio"⟩).1 ⟨"a", "audio"⟩).1.caches =
      (addTrack initialMixer ⟨"a", "audio"⟩).1.caches ∧
    muteTrack initialMixer ⟨"a", "audio"⟩ = (initialMixer, .ok false) := by
  have h := (muteTrack_unmuteTrack_spec (addTrack initialMixer ⟨"a", "audio"⟩).1
    ⟨"a", "audio"⟩ rfl).1 ⟨⟨"a", "audio"⟩, 3, 4, 5⟩ (by rfl)
  exact ⟨h.2.2.1, h.2.2.2.2.1,
    ((muteTrack_unmuteTrack_spec initialMixer ⟨"a", "audio"⟩ rfl).2 rfl).1⟩

/-- Claim C6: on an audio-kind track whose identifier has no registration,
`removeTrack` does not throw, leaves the state unchanged and returns the
mixer; removal is idempotent (a second call on the resulting state
returns that state unchanged); when a registration exists, the call
disconnects gain→destination and source→gain and deletes the registry
entry. -/
theorem removeTrack_spec (s : MixerState) (t : Track) (hk : t.kind = "audio") :
    (lookupAssoc s.caches t.id = none → removeTrack s t = (s, .ok s)) ∧
    (∀ s₁ r, removeTrack s t = (s₁, r) → removeTrack s₁ t = (s₁, .ok s₁)) ∧
    (∀ c : TrackCache, lookupAssoc s.caches t.id = some c →
      ∃ s₁, removeTrack s t = (s₁, .ok s₁) ∧
        s₁.caches = delAssoc s.caches t.id ∧
        lookupAssoc s₁.caches t.id = none ∧
        (c.gainNode, destinationNode) ∉ s₁.conns ∧
        (c.sourceNode, c.gainNode) ∉ s₁.conns) := by
  refine ⟨fun hn => removeTrack_notfound hk hn, ?_, ?_⟩
  · intro s₁ r heq
    cases hc : lookupAssoc s.caches t.id with
    | none =>
      rw [removeTrack_notfound hk hc] at heq
      obtain ⟨rfl, -⟩ := Prod.mk.injEq .. ▸ heq
      exact removeTrack_notfound hk hc
    | some c =>
      rw [removeTrack_found hk hc] at heq
      obtain ⟨rfl, -⟩ := Prod.mk.injEq .. ▸ heq
      exact removeTrack_notfound hk (lookupAssoc_delAssoc_self s.caches t.id)
  · intro c hc
    refine ⟨removedState s t c, removeTrack_found hk hc,
      rfl, lookupAssoc_delAssoc_self s.caches t.id, ?_, ?_⟩
    · intro hmem
      simp only [removedState, List.mem_filter, decide_eq_true_eq] at hmem
      exact hmem.1.2 rfl
    · intro hmem
      simp only [removedState, List.mem_filter, decide_eq_true_eq] at hmem
      exact hmem.2 rfl

/-- Closed instance of C6: removing "b" from the empty mixer is a silent
no-op, a repeated removal of "a" after its removal returns the same
state, and removing the registered "a" deletes its entry and wires. -/
theorem removeTrack_spec_witness :
    removeTrack initialMixer ⟨"b", "audio"⟩ = (initialMixer, .ok initialMixer) ∧
    (∃ s₁, removeTrack (addTrack initialMixer ⟨"a", "audio"⟩).1 ⟨"a", "audio"⟩ =
        (s₁, .ok s₁) ∧
      s₁.caches = delAssoc (addTrack initialMixer ⟨"a", "audio"⟩).1.caches "a" ∧
      lookupAssoc s₁.caches "a" = none ∧
      (5, destinationNode) ∉ s₁.conns ∧ (4, 5) ∉ s₁.conns) := by
  constructor
  · exact (removeTrack_spec initialMixer ⟨"b", "audio"⟩ rfl).1 rfl
  · exact (removeTrack_spec (addTrack initialMixer ⟨"a", "audio"⟩).1
      ⟨"a", "audio"⟩ rfl).2.2 ⟨⟨"a", "audio"⟩, 3, 4, 5⟩ (by rfl)

theorem maxDeviation_le {data : List Nat} (h : ∀ x ∈ data, x < 256) :
    maxDeviation data ≤ 128 := by
  have hgen : ∀ (l : List Nat) (acc : Nat), (∀ x ∈ l, x < 256) → acc ≤ 128 →
      l.foldl (fun m item => Nat.max m (Int.natAbs ((item : Int) - (BASE : Int)))) acc ≤ 128 := by
    intro l
    induction l with
    | nil => intro acc _ hacc; simpa using hacc
    | cons x rest ih =>
      intro acc hl hacc
      refine ih _ (fun y hy => hl y (List.mem_cons_of_mem _ hy)) ?_
      have hx := hl x (List.mem_cons_self _ _)
      simp only [BASE, Nat.max_le]
      exact ⟨hacc, by omega⟩
  exact hgen data 0 h (by omega)

/-- Claim C7: with an analyser present, `getMixedTrackVolume` over a
sample buffer of unsigned bytes equals
`floor(maxDeviation / 128 * 100)` where `maxDeviation` is the maximum
absolute deviation of the samples from the baseline 128, the result lies
in `[0, 100]`, and with no analyser the result is 0. -/
theorem getMixedTrackVolume_spec (data : List Nat)
    (hbyte : ∀ x ∈ data, x < 256) :
    getMixedTrackVolume (some data) =
      ⌊((maxDeviation data : ℚ) / (BASE : ℚ)) * 100⌋₊ ∧
    getMixedTrackVolume (some data) ≤ 100 ∧
    getMixedTrackVolume none = 0 := by
  refine ⟨?_, ?_, rfl⟩
  · show maxDeviation data * 100 / BASE = _
    rw [div_mul_eq_mul_div]
    have : ((maxDeviation data : ℚ)) * 100 = ((maxDeviation data * 100 : ℕ) : ℚ) := by
      push_cast
      ring
    rw [this, Nat.floor_div_eq_div]
  · show maxDeviation data * 100 / BASE ≤ 100
    have h := maxDeviation_le hbyte
    simp only [BASE]
    omega

/-- Closed instance of C7 on the byte buffer `[0, 200, 255]` (maximum
deviation 128, metered volume 100). -/
theorem getMixedTrackVolume_spec_witness :
    getMixedTrackVolume (some [0, 200, 255]) =
      ⌊((maxDeviation [0, 200, 255] : ℚ) / (BASE : ℚ)) * 100⌋₊ ∧
    getMixedTrackVolume (some [0, 200, 255]) ≤ 100 ∧
    getMixedTrackVolume (some [0, 200, 255]) = 100 := by
  have h := getMixedTrackVolume_spec [0, 200, 255] (by decide)
  exact ⟨h.1, h.2.1, by decide⟩

/-- Claim C8: `destroy` empties the registry, removes every
registration's two wires (gain→destination and source→gain) from the
graph, and returns the context-release completion signal unchanged — a
signal that is resolved exactly when it is not rejected. -/
theorem destroy_spec (s : MixerState) (r : Except String Unit) :
    (destroy s r).1.caches = [] ∧
    (∀ p ∈ s.caches,
      (p.2.gainNode, destinationNode) ∉ (destroy s r).1.conns ∧
      (p.2.sourceNode, p.2.gainNode) ∉ (destroy s r).1.conns) ∧
    (destroy s r).2 = r ∧
    ((destroy s r).2 = Except.ok () ↔ ∀ e, (destroy s r).2 ≠ Except.error e) := by
  refine ⟨rfl, ?_, rfl, ?_⟩
  · intro p hp
    constructor
    · intro hmem
      rw [show (destroy s r).1.conns = disconnectAll s.caches s.conns from rfl,
        mem_disconnectAll] at hmem
      exact (hmem.2 p hp).1 rfl
    · intro hmem
      rw [show (destroy s r).1.conns = disconnectAll s.caches s.conns from rfl,
        mem_disconnectAll] at hmem
      exact (hmem.2 p hp).2 rfl
  · show r = Except.ok () ↔ ∀ e, r ≠ Except.error e
    cases r with
    | ok u => cases u; simp
    | error e => simp

/-- Closed instance of C8: destroying the mixer holding track "a" with a
resolved release signal empties the registry, unwires gain node 5 and
source node 4, and passes the resolution through. -/
theorem destroy_spec_witness :
    (destroy (addTrack initialMixer ⟨"a", "audio"⟩).1 (Except.ok ())).1.caches = [] ∧
    (5, destinationNode) ∉
      (destroy (addTrack initialMixer ⟨"a", "audio"⟩).1 (Except.ok ())).1.conns ∧
    (4, 5) ∉
      (destroy (addTrack initialMixer ⟨"a", "audio"⟩).1 (Except.ok ())).1.conns ∧
    (destroy (addTrack initialMixer ⟨"a", "audio"⟩).1 (Except.ok ())).2 =
      Except.ok () := by
  have h := destroy_spec (addTrack initialMixer ⟨"a", "audio"⟩).1 (Except.ok ())
  have hw := h.2.1 ("a", ⟨⟨"a", "audio"⟩, 3, 4, 5⟩) (by decide)
  exact ⟨h.1, hw.1, hw.2, h.2.2.1⟩

/-- A browser environment with no capture capability at all (for example
Chrome 49 reports neither `captureStream` nor `mozCaptureStream` and is
neither Safari nor old Edge). -/
def envNoCapture : BrowserEnv :=
  { hasCaptureStream := false
    hasMozCaptureStream := false
    safari := false
    oldEdge := false
    browserName := "Chrome"
    browserVersion := "49" }

/-- A concrete media element for the capture-helper claims. -/
def sampleElement : MediaElement :=
  { capturedStream := ⟨[⟨"x", "audio"⟩, ⟨"y", "video"⟩]⟩
    mozCapturedStream := ⟨[⟨"x", "audio"⟩, ⟨"z", "audio"⟩]⟩
    audioTracks := [⟨"w", "audio"⟩] }

/-- Claim C9 counterexample: with no capture capability detected,
`getTracksFromAudioElement` returns the empty list while emitting NO
diagnostic warning (the claim says both helpers warn), and under the
`mozCaptureStream` capability it returns a single track value — the
`[0]`-indexed first element — rather than the list of audio tracks the
claim (and the function's own declared return type `MediaStreamTrack[]`)
promises. -/
theorem getTracksFromAudioElement_counterexample :
    getTracksFromAudioElement envNoCapture sampleElement =
      (TracksValue.list [], []) ∧
    getTracksFromAudioElement
        { envNoCapture with hasMozCaptureStream := true } sampleElement =
      (TracksValue.single (some ⟨"x", "audio"⟩), []) := by
  constructor <;> rfl

/-- Claim C9 as amended: `getMediaStreamFromElement` returns the captured
stream under the standard or moz capability and otherwise warns naming
the detected browser and version and returns `undefined`;
`getTracksFromAudioElement` returns the audio-track list under the
standard capability, only the first audio track under the moz capability,
the legacy `audioTracks` property under Safari/old Edge, and otherwise
silently returns the empty list; neither helper ever throws. -/
theorem captureHelpers_spec (env : BrowserEnv) (el : MediaElement) :
    (env.hasCaptureStream = true →
      getMediaStreamFromElement env el = (some el.capturedStream, []) ∧
      getTracksFromAudioElement env el =
        (.list el.capturedStream.getAudioTracks, [])) ∧
    (env.hasCaptureStream = false → env.hasMozCaptureStream = true →
      getMediaStreamFromElement env el = (some el.mozCapturedStream, []) ∧
      getTracksFromAudioElement env el =
        (.single el.mozCapturedStream.getAudioTracks.head?, [])) ∧
    (env.hasCaptureStream = false → env.hasMozCaptureStream = false →
      getMediaStreamFromElement env el =
        (none,
          [env.browserName ++ " - " ++ env.browserVersion ++
            " is not support this API"]) ∧
      ((env.safari || env.oldEdge) = true →
        getTracksFromAudioElement env el = (.list el.audioTracks, [])) ∧
      ((env.safari || env.oldEdge) = false →
        getTracksFromAudioElement env el = (.list [], []))) := by
  refine ⟨?_, ?_, ?_⟩
  · intro h1
    constructor <;> simp [getMediaStreamFromElement, getTracksFromAudioElement, h1]
  · intro h1 h2
    constructor <;>
      simp [getMediaStreamFromElement, getTracksFromAudioElement, h1, h2]
  · intro h1 h2
    refine ⟨?_, ?_, ?_⟩
    · simp [getMediaStreamFromElement, h1, h2]
    · intro h3
      simp [getTracksFromAudioElement, h1, h2, h3]
    · intro h3
      simp [getTracksFromAudioElement, h1, h2, h3]

/-- Closed instance of the amended C9 at concrete environments: the
standard-capability path, the moz path (single track), the
no-capability path of `getMediaStreamFromElement` (warning naming the
browser) and of `getTracksFromAudioElement` (silent empty list). -/
theorem captureHelpers_spec_witness :
    getMediaStreamFromElement
        { envNoCapture with hasCaptureStream := true } sampleElement =
      (some sampleElement.capturedStream, []) ∧
    getTracksFromAudioElement
        { envNoCapture with hasMozCaptureStream := true } sampleElement =
      (.single sampleElement.mozCapturedStream.getAudioTracks.head?, []) ∧
    getMediaStreamFromElement envNoCapture sampleElement =
      (none, ["Chrome" ++ " - " ++ "49" ++ " is not support this API"]) ∧
    getTracksFromAudioElement envNoCapture sampleElement =
      (.list [], []) :=
  ⟨((captureHelpers_spec { envNoCapture with hasCaptureStream := true }
      sampleElement).1 rfl).1,
    ((captureHelpers_spec { envNoCapture with hasMozCaptureStream := true }
      sampleElement).2.1 rfl rfl).2,
    ((captureHelpers_spec envNoCapture sampleElement).2.2 rfl rfl).1,
    (((captureHelpers_spec envNoCapture sampleElement).2.2 rfl rfl).2.2 rfl)⟩

/-- Claim C10: for every registered audio-kind track and every volume,
including values outside `[0, 100]`, `setTrackVolume` passes the value
through unclamped and the gain node value becomes exactly
`volume / 100`. -/
theorem setTrackVolume_unclamped (s : MixerState) (t : Track) (v : Rat)
    (c : TrackCache) (hk : t.kind = "audio")
    (hc : lookupAssoc s.caches t.id = some c) :
    lookupAssoc (setTrackVolume s t v).1.gains c.gainNode = some (v / 100) := by
  rw [setTrackVolume_found hk hc]
  exact lookupAssoc_setAssoc_self s.gains c.gainNode (v / 100)

/-- Closed instance of C10: volume 200 yields gain 2 and volume -50
yields gain -0.5 on the registered track "a" (gain node 5). -/
theorem setTrackVolume_unclamped_witness :
    lookupAssoc
      (setTrackVolume (addTrack initialMixer ⟨"a", "audio"⟩).1 ⟨"a", "audio"⟩ 200).1.gains
      5 = some 2 ∧
    lookupAssoc
      (setTrackVolume (addTrack initialMixer ⟨"a", "audio"⟩).1 ⟨"a", "audio"⟩ (-50)).1.gains
      5 = some (-(1 / 2)) := by
  constructor
  · rw [setTrackVolume_unclamped (addTrack initialMixer ⟨"a", "audio"⟩).1
      ⟨"a", "audio"⟩ 200 ⟨⟨"a", "audio"⟩, 3, 4, 5⟩ rfl (by rfl)]
    norm_num
  · rw [setTrackVolume_unclamped (addTrack initialMixer ⟨"a", "audio"⟩).1
      ⟨"a", "audio"⟩ (-50) ⟨⟨"a", "audio"⟩, 3, 4, 5⟩ rfl (by rfl)]
    norm_num

end AudioTrackMixer
